import Mathlib

/-!
Verification development for the Cycle & Metabolic Estimation Engine of the
wellness-tracker repository (class `RehmaHealthOS` in `main.js`).

Embedding conventions:
* Calendar dates (ISO `YYYY-MM-DD` strings in the source) are embedded as `Nat`
  day numbers.  On valid ISO dates, JavaScript string comparison, `Date`
  subtraction divided by 86400000, and `setDate (+5)` all agree with the
  corresponding `Nat` operations on day numbers, which is what we use.
* JavaScript numbers are embedded as `ℚ` where fractional values occur
  (profile data, macro sums, averages); all arithmetic in the source stays
  exact on the inputs considered, so `ℚ` is a faithful model.
* `Math.floor` is `Int.floor`; `Math.round` (half away from zero on the
  non-negative values that occur) is `jsRound q = ⌊q + 1/2⌋`.
* The JS `%` operator truncates toward zero; it is embedded as `Int.tmod`.
* `Array.prototype.sort` with the comparator `new Date(a.date) - new
  Date(b.date)` is a stable sort by date; it is embedded as
  `List.insertionSort` over `evLE` (also a stable sort by date).
* The event kind strings `'start'` / `'end'` become the constructors
  `EvType.start` / `EvType.stop` (`end` is a reserved word in Lean).
* The unused `avgDuration` field of the cycle state and the dead
  `lastEvent.type === 'end'` branch of `getPhaseForDate` (which computes a
  local variable and then does nothing with it) are omitted.
-/

/-- JavaScript `Math.round` on the values occurring here (half away from zero
for non-negative arguments): `⌊q + 1/2⌋`. -/
def jsRound (q : ℚ) : Int := ⌊q + 1/2⌋

/-- Event kind: `'start'` or `'end'` in the source (`end` is reserved in Lean,
so the second constructor is named `stop`). -/
inductive EvType where
  | start : EvType
  | stop : EvType
deriving DecidableEq, BEq

/-- A cycle event `{ date: 'YYYY-MM-DD', type: 'start'|'end' }`, with the date
embedded as a day number. -/
structure CycleEvent where
  date : Nat
  type : EvType
deriving DecidableEq

/-- The cycle part of the persistent state: `state.cycle.events` and
`state.cycle.avgLength` (factory default 29). -/
structure CycleState where
  events : List CycleEvent
  avgLength : Int
deriving DecidableEq

/-- The factory-default cycle state: empty event log, `avgLength = 29`. -/
def cycleFactory : CycleState := ⟨[], 29⟩

/-- Date order on events, the key of the comparator
`(a,b) => new Date(a.date) - new Date(b.date)`. -/
def evLE (a b : CycleEvent) : Prop := a.date ≤ b.date

instance : DecidableRel evLE := fun a b => Nat.decLe a.date b.date

instance : IsTotal CycleEvent evLE := ⟨fun a b => Nat.le_total a.date b.date⟩

instance : IsTrans CycleEvent evLE := ⟨fun _ _ _ => Nat.le_trans⟩

/-- The stable sort by date performed by `sortCycleEvents` on the event array. -/
def sortEvents (es : List CycleEvent) : List CycleEvent := List.insertionSort evLE es

/-- The accepted cycle-length samples of `recalculateCycleStats`: for every
`start` event, the day delta to the next `start` event after it, kept only if
`15 < delta < 50` (`days > 15 && days < 50` in the source). -/
def cycleSamples : List CycleEvent → List Int
  | [] => []
  | e :: rest =>
    (if e.type = EvType.start then
      match rest.find? (fun n => n.type == EvType.start) with
      | some n =>
        if 15 < (n.date : Int) - (e.date : Int) ∧ (n.date : Int) - (e.date : Int) < 50 then
          [(n.date : Int) - (e.date : Int)]
        else []
      | none => []
    else []) ++ cycleSamples rest

/-- `recalculateCycleStats`: requires at least 3 events; averages the accepted
start-to-start deltas and stores `Math.round(totalDays / cycles)` in
`avgLength`; if no sample is accepted (`cycles === 0`) nothing is assigned. -/
def recalculateCycleStats (c : CycleState) : CycleState :=
  if c.events.length < 3 then c
  else if 0 < (cycleSamples c.events).length then
    { c with avgLength :=
        jsRound (((cycleSamples c.events).sum : ℚ) / ((cycleSamples c.events).length : ℚ)) }
  else c

/-- `sortCycleEvents`: sorts the event array by date and then recomputes the
cycle statistics. -/
def sortCycleEvents (c : CycleState) : CycleState :=
  recalculateCycleStats { c with events := sortEvents c.events }

/-- `closeOpenCycles(newStartDate)`: if the last event of the array is a
`start` dated strictly before the new start date, synthesize an `end` event 5
days after it, but push it only if that synthetic end date is strictly before
the new start date. -/
def closeOpenCycles (es : List CycleEvent) (d : Nat) : List CycleEvent :=
  match es.getLast? with
  | none => es
  | some lastEvent =>
    if lastEvent.type = EvType.start ∧ lastEvent.date < d then
      if lastEvent.date + 5 < d then es ++ [⟨lastEvent.date + 5, EvType.stop⟩]
      else es
    else es

/-- `logPeriodStart(dateStr)`: no-op if a `start` event already exists on that
date; otherwise auto-close the previous period, push the new `start`, re-sort
and recompute statistics. -/
def logPeriodStart (c : CycleState) (d : Nat) : CycleState :=
  if c.events.any (fun e => e.date == d && e.type == EvType.start) then c
  else sortCycleEvents { c with events := closeOpenCycles c.events d ++ [⟨d, EvType.start⟩] }

/-- The eligibility test of the backward scan in `logPeriodEnd`: position `i`
holds a `start` event dated on-or-before `d` whose immediate successor event
either does not exist or is itself a `start` (i.e. the start is not already
closed by an `end`). -/
def openStartEligible (es : List CycleEvent) (d : Nat) (i : Nat) : Bool :=
  match es[i]? with
  | some e =>
    e.type == EvType.start && decide (e.date ≤ d) &&
      (match es[i+1]? with
      | none => true
      | some n => n.type == EvType.start)
  | none => false

/-- The backward scan of `logPeriodEnd` from index `i` down to 0, returning
the first (largest) eligible index. -/
def findCloseTargetAux (es : List CycleEvent) (d : Nat) : Nat → Option Nat
  | 0 => if openStartEligible es d 0 then some 0 else none
  | i + 1 => if openStartEligible es d (i+1) then some (i+1) else findCloseTargetAux es d i

/-- The full backward scan of `logPeriodEnd` (`for i = events.length - 1; i >= 0; i--`). -/
def findCloseTarget (es : List CycleEvent) (d : Nat) : Option Nat :=
  match es.length with
  | 0 => none
  | n + 1 => findCloseTargetAux es d n

/-- `logPeriodEnd(dateStr)`: no-op if an `end` event already exists on that
date; otherwise scan backward for an open `start` on-or-before the date and,
if one is found, push the `end`, re-sort and recompute; if none is found the
call silently does nothing. -/
def logPeriodEnd (c : CycleState) (d : Nat) : CycleState :=
  if c.events.any (fun e => e.date == d && e.type == EvType.stop) then c
  else
    match findCloseTarget c.events d with
    | some _ => sortCycleEvents { c with events := c.events ++ [⟨d, EvType.stop⟩] }
    | none => c

/-- The chronological scan with early exit of `getPhaseForDate` step 1
(`for e of events: if date(e) <= t then lastEvent = e else break`): the last
event of the longest prefix of events dated on-or-before `d`. -/
def lastEventLE : List CycleEvent → Nat → Option CycleEvent
  | [], _ => none
  | e :: rest, d =>
    if e.date ≤ d then
      match lastEventLE rest d with
      | some later => some later
      | none => some e
    else none

/-- `[...events].reverse().find(...)`: the most recent `start` event dated
on-or-before `d`, scanning the whole array. -/
def lastStartLE (es : List CycleEvent) (d : Nat) : Option CycleEvent :=
  es.reverse.find? (fun e => e.type == EvType.start && decide (e.date ≤ d))

/-- The fixed day-range boundaries at the end of `getPhaseForDate`:
days ≤ 5 Menstrual, ≤ 13 Follicular, ≤ 17 Ovulation, otherwise Luteal. -/
inductive Phase where
  | Menstrual : Phase
  | Follicular : Phase
  | Ovulation : Phase
  | Luteal : Phase
deriving DecidableEq

/-- Maps a 1-indexed cycle day to its phase (the four trailing `if` lines of
`getPhaseForDate`). -/
def phaseOfCycleDay (cycleDay : Int) : Phase :=
  if cycleDay ≤ 5 then Phase.Menstrual
  else if cycleDay ≤ 13 then Phase.Follicular
  else if cycleDay ≤ 17 then Phase.Ovulation
  else Phase.Luteal

/-- Step 2 of `getPhaseForDate` (the "phase math"): most recent `start`
on-or-before the date, 1-indexed days since that start, modulo wrap at the
learned average length (`avgLength || 29`), then the day-range mapping. -/
def projectedPhase (c : CycleState) (d : Nat) : Phase :=
  match lastStartLE c.events d with
  | none => Phase.Follicular
  | some lastStart =>
    let daysSinceStart : Int := (d : Int) - (lastStart.date : Int) + 1
    let avgLen : Int := if c.avgLength = 0 then 29 else c.avgLength
    phaseOfCycleDay ((daysSinceStart - 1).tmod avgLen + 1)

/-- Step 1 of `getPhaseForDate`: the most recent event on-or-before the date
(under the early-exit scan) is a `start` at most 7 days old
(`if (diff <= 7) return 'Menstrual'`). -/
def menstrualOverride (c : CycleState) (d : Nat) : Bool :=
  match lastEventLE c.events d with
  | some e => e.type == EvType.start && decide ((d : Int) - (e.date : Int) ≤ 7)
  | none => false

/-- `getPhaseForDate(dateStr)`: if the most recent event on-or-before the date
is a `start` at most 7 days old, the date is Menstrual; otherwise fall through
to the projected phase math. -/
def getPhaseForDate (c : CycleState) (d : Nat) : Phase :=
  if menstrualOverride c d then Phase.Menstrual else projectedPhase c d

/-- The user profile fields consumed by `calculateKatchMcArdle`: weight (kg),
body-fat percentage, and the activity-level string. -/
structure Profile where
  weight : ℚ
  bodyFat : ℚ
  activityLevel : String

/-- The activity-multiplier table of `calculateKatchMcArdle`, with the
`|| 1.55` fallback for unset/unrecognized levels. -/
def activityMultiplier (level : String) : ℚ :=
  if level = "sedentary" then 1.2
  else if level = "light" then 1.375
  else if level = "moderate" then 1.55
  else if level = "active" then 1.725
  else if level = "athlete" then 1.9
  else 1.55

/-- `state.logs.weight[today] || p.weight`: today's logged weight when present
and non-zero (zero is falsy in JS), else the profile weight. -/
def currentWeightOf (p : Profile) (todayWeight : Option ℚ) : ℚ :=
  match todayWeight with
  | some w => if w = 0 then p.weight else w
  | none => p.weight

/-- Lean body mass: `currentWeight * (1 - (bodyFat || 25) / 100)`. -/
def katchLBM (p : Profile) (todayWeight : Option ℚ) : ℚ :=
  currentWeightOf p todayWeight * (1 - (if p.bodyFat = 0 then 25 else p.bodyFat) / 100)

/-- Basal metabolic rate: `370 + 21.6 * lbm`. -/
def katchBMR (p : Profile) (todayWeight : Option ℚ) : ℚ :=
  370 + 21.6 * katchLBM p todayWeight

/-- `calculateKatchMcArdle()`: `Math.floor(bmr * activity + phaseBurn)` where
`phaseBurn` is 150 when today's phase is Luteal and 0 otherwise. -/
def calculateKatchMcArdle (p : Profile) (todayWeight : Option ℚ)
    (c : CycleState) (today : Nat) : Int :=
  let phaseBurn : ℚ := if getPhaseForDate c today = Phase.Luteal then 150 else 0
  ⌊katchBMR p todayWeight * activityMultiplier p.activityLevel + phaseBurn⌋

/-- A nutrition entry as stored by `logFood`
(`{id, name, cals, p, c, f, fiber}`). -/
structure FoodEntry where
  id : Nat
  name : String
  cals : ℚ
  p : ℚ
  c : ℚ
  f : ℚ
  fiber : ℚ
deriving DecidableEq

/-- A workout entry as stored by `logWorkout` (`{id, ...workout}`); the
calories-burned datum of the caller's object is held in the `burn` field,
the property `getDailyStats` reads. -/
structure WorkoutEntry where
  id : Nat
  type : String
  durationMinutes : ℚ
  intensity : String
  burn : ℚ
deriving DecidableEq

/-- A per-date log map (`state.logs.nutrition` / `state.logs.workouts`):
date-keyed lists, with absent keys read as `[]` (`|| []`). -/
def DayMap (α : Type) : Type := Nat → List α

/-- The empty log map: every date reads as the empty list. -/
def emptyDayMap (α : Type) : DayMap α := fun _ => []

/-- `logWorkout(dateStr, workout)`: append the entry to that date's list
(creating the list on first use). -/
def logWorkout (m : DayMap WorkoutEntry) (d : Nat) (w : WorkoutEntry) :
    DayMap WorkoutEntry :=
  fun d' => if d' = d then m d ++ [w] else m d'

/-- A sequence of `logWorkout` calls applied in order, starting from the
empty workout map. -/
def applyWorkouts (ws : List (Nat × WorkoutEntry)) : DayMap WorkoutEntry :=
  ws.foldl (fun m pr => logWorkout m pr.1 pr.2) (emptyDayMap WorkoutEntry)

/-- The macro accumulator of `getDailyStats`
(`{ cals:0, p:0, c:0, f:0, fiber:0 }`). -/
structure Macros where
  cals : ℚ
  p : ℚ
  c : ℚ
  f : ℚ
  fiber : ℚ
deriving DecidableEq

/-- The value returned by `getDailyStats`: `{ macros, burn }`. -/
structure DailyStats where
  macros : Macros
  burn : ℚ
deriving DecidableEq

/-- The step function of the `reduce` over nutrition entries. -/
def macroStep (acc : Macros) (item : FoodEntry) : Macros :=
  ⟨acc.cals + item.cals, acc.p + item.p, acc.c + item.c, acc.f + item.f,
    acc.fiber + item.fiber⟩

/-- `getDailyStats(dateStr)`: fold the date's nutrition entries into macro
sums and the date's workout entries into a burn sum. -/
def getDailyStats (nm : DayMap FoodEntry) (wm : DayMap WorkoutEntry) (d : Nat) :
    DailyStats :=
  ⟨(nm d).foldl macroStep ⟨0, 0, 0, 0, 0⟩,
    (wm d).foldl (fun acc item => acc + item.burn) 0⟩

/-- A mutation of the cycle log: one `logPeriodStart` or `logPeriodEnd` call. -/
inductive CycleOp where
  | pstart : Nat → CycleOp
  | pend : Nat → CycleOp

/-- Apply one mutation to the cycle state. -/
def applyOp (c : CycleState) : CycleOp → CycleState
  | CycleOp.pstart d => logPeriodStart c d
  | CycleOp.pend d => logPeriodEnd c d

/-- Apply a sequence of mutations in order. -/
def applyOps (c : CycleState) (ops : List CycleOp) : CycleState :=
  ops.foldl applyOp c

/-! ### Helper lemmas -/

/-- `recalculateCycleStats` never touches the event array, only `avgLength`. -/
theorem recalculateCycleStats_events (c : CycleState) :
    (recalculateCycleStats c).events = c.events := by
  unfold recalculateCycleStats
  split
  · rfl
  · split
    · rfl
    · rfl

/-- The events after `sortCycleEvents` are exactly the sorted events. -/
theorem sortCycleEvents_events (c : CycleState) :
    (sortCycleEvents c).events = sortEvents c.events := by
  unfold sortCycleEvents
  rw [recalculateCycleStats_events]

/-- Sorting the events produces a list sorted by date. -/
theorem sorted_sortEvents (es : List CycleEvent) : List.Sorted evLE (sortEvents es) :=
  List.sorted_insertionSort evLE es

/-- Sorting the events is a permutation of them. -/
theorem perm_sortEvents (es : List CycleEvent) : List.Perm (sortEvents es) es :=
  List.perm_insertionSort evLE es

/-- If no position is eligible, the backward scan of `logPeriodEnd` fails. -/
theorem findCloseTargetAux_none (es : List CycleEvent) (d : Nat)
    (h : ∀ j : Nat, openStartEligible es d j = false) :
    ∀ i : Nat, findCloseTargetAux es d i = none := by
  intro i
  induction i with
  | zero => unfold findCloseTargetAux; rw [h 0]; rfl
  | succ j ih => unfold findCloseTargetAux; rw [h (j + 1)]; exact ih

/-! ### Claim theorems -/

/-- C1: the metabolic estimator returns
`floor(bmr * activityMultiplier) + phaseSurcharge` with a 150 kcal surcharge
exactly when the phase is Luteal, and on the profile weight 65 kg, body-fat
22 %, activity `moderate` with a Luteal query date it computes
`lbm = 50.7`, `bmr = 1465.12` and a total of `2420`. -/
theorem C1_katch_mcardle_tdee :
    (∀ (p : Profile) (tw : Option ℚ) (c : CycleState) (today : Nat),
      calculateKatchMcArdle p tw c today =
        ⌊katchBMR p tw * activityMultiplier p.activityLevel⌋ +
          (if getPhaseForDate c today = Phase.Luteal then 150 else 0))
    ∧ katchLBM ⟨65, 22, "moderate"⟩ none = 50.7
    ∧ katchBMR ⟨65, 22, "moderate"⟩ none = 1465.12
    ∧ getPhaseForDate ⟨[⟨0, EvType.start⟩], 29⟩ 17 = Phase.Luteal
    ∧ calculateKatchMcArdle ⟨65, 22, "moderate"⟩ none ⟨[⟨0, EvType.start⟩], 29⟩ 17 = 2420 := by
  refine ⟨?_, ?_, ?_, by decide, ?_⟩
  · intro p tw c today
    by_cases hp : getPhaseForDate c today = Phase.Luteal
    · have h := Int.floor_add_int (katchBMR p tw * activityMultiplier p.activityLevel) 150
      push_cast at h
      simp [calculateKatchMcArdle, hp, h]
    · simp [calculateKatchMcArdle, hp]
  · norm_num [katchLBM, currentWeightOf]
  · norm_num [katchBMR, katchLBM, currentWeightOf]
  · have hph : getPhaseForDate ⟨[⟨0, EvType.start⟩], 29⟩ 17 = Phase.Luteal := by decide
    have ha : activityMultiplier "moderate" = 1.55 := rfl
    simp only [calculateKatchMcArdle, hph, ha]
    norm_num [katchBMR, katchLBM, currentWeightOf, Int.floor_eq_iff]

/-- C2: with a single `start` on day 0 and average length 28, the resolver
returns Menstrual on day 0, Ovulation on day 14, Menstrual on day 28 (wrap to
day 1 of the next cycle), and past the 7-day bleeding window it follows the
mapping `phaseOfCycleDay (((daysSinceStart - 1) mod 28) + 1)` with
`daysSinceStart = d + 1`. -/
theorem C2_phase_wrap :
    getPhaseForDate ⟨[⟨0, EvType.start⟩], 28⟩ 0 = Phase.Menstrual
    ∧ getPhaseForDate ⟨[⟨0, EvType.start⟩], 28⟩ 14 = Phase.Ovulation
    ∧ getPhaseForDate ⟨[⟨0, EvType.start⟩], 28⟩ 28 = Phase.Menstrual
    ∧ (∀ d : Nat, 7 < d →
        getPhaseForDate ⟨[⟨0, EvType.start⟩], 28⟩ d =
          phaseOfCycleDay (((d % 28 : Nat) : Int) + 1)) := by
  refine ⟨by decide, by decide, by decide, ?_⟩
  intro d hd
  have hle : lastEventLE [⟨0, EvType.start⟩] d = some ⟨0, EvType.start⟩ := by
    simp [lastEventLE, Nat.zero_le]
  have hov : menstrualOverride ⟨[⟨0, EvType.start⟩], 28⟩ d = false := by
    have h7 : ¬ ((d : Int) ≤ 7) := by omega
    simp [menstrualOverride, hle, h7]
  clear hle
  have hph : getPhaseForDate ⟨[⟨0, EvType.start⟩], 28⟩ d
      = projectedPhase ⟨[⟨0, EvType.start⟩], 28⟩ d := by
    unfold getPhaseForDate
    rw [hov]
    rfl
  rw [hph]
  have hls : lastStartLE [⟨0, EvType.start⟩] d = some ⟨0, EvType.start⟩ := by
    simp only [lastStartLE, List.reverse_singleton]
    apply List.find?_cons_of_pos
    simp [decide_eq_true (Nat.zero_le d)]
    decide
  simp only [projectedPhase, hls, Nat.cast_zero, sub_zero, add_sub_cancel_right]
  have h28 : (if (28 : Int) = 0 then (29 : Int) else 28) = 28 := by norm_num
  rw [h28]
  rfl

/-- C2 witness: the wrap formula applied at the concrete day 17. -/
theorem C2_phase_wrap_witness :
    getPhaseForDate ⟨[⟨0, EvType.start⟩], 28⟩ 17 =
      phaseOfCycleDay (((17 % 28 : Nat) : Int) + 1) :=
  C2_phase_wrap.2.2.2 17 (by decide)

/-- C3: starting from `Start(day 0)`, `logPeriodStart(day 19)` yields the log
`[Start 0, End 5, Start 19]` with the synthesized `End` before the second
`Start`; in general, when the most recent existing event is a `start` dated
before the new date, `closeOpenCycles` appends an `End` at that start's date
plus 5 days exactly when that synthesized date is strictly before the new
date, and does nothing on an empty log. -/
theorem C3_auto_close :
    (logPeriodStart ⟨[⟨0, EvType.start⟩], 29⟩ 19).events =
      [⟨0, EvType.start⟩, ⟨5, EvType.stop⟩, ⟨19, EvType.start⟩]
    ∧ (∀ (es : List CycleEvent) (d : Nat) (e : CycleEvent), es.getLast? = some e →
        closeOpenCycles es d =
          if e.type = EvType.start ∧ e.date < d ∧ e.date + 5 < d then
            es ++ [⟨e.date + 5, EvType.stop⟩]
          else es)
    ∧ (∀ d : Nat, closeOpenCycles [] d = []) := by
  refine ⟨by decide, ?_, fun d => rfl⟩
  intro es d e h
  unfold closeOpenCycles
  rw [h]
  show (if e.type = EvType.start ∧ e.date < d then
      if e.date + 5 < d then es ++ [⟨e.date + 5, EvType.stop⟩] else es
    else es) =
    if e.type = EvType.start ∧ e.date < d ∧ e.date + 5 < d then
      es ++ [⟨e.date + 5, EvType.stop⟩]
    else es
  by_cases h1 : e.type = EvType.start ∧ e.date < d
  · by_cases h2 : e.date + 5 < d
    · rw [if_pos h1, if_pos h2, if_pos ⟨h1.1, h1.2, h2⟩]
    · rw [if_pos h1, if_neg h2, if_neg (fun hc => h2 hc.2.2)]
  · rw [if_neg h1, if_neg (fun hc => h1 ⟨hc.1, hc.2.1⟩)]

/-- C3 witness: the auto-close characterization applied to the concrete log
`[Start 0]` with new start date 19. -/
theorem C3_auto_close_witness :
    closeOpenCycles [⟨0, EvType.start⟩] 19 = [⟨0, EvType.start⟩, ⟨5, EvType.stop⟩] := by
  have h := C3_auto_close.2.1 [⟨0, EvType.start⟩] 19 ⟨0, EvType.start⟩ rfl
  rw [if_pos (by decide)] at h
  exact h

/-- C4 counterexample: for a log whose only event is an unclosed `Start` on
day 0 (default average length), the date exactly 7 days later — cycle day 8 —
is classified Menstrual by the code, not Follicular as the claim states: the
open-period Menstrual window covers `diff <= 7`, i.e. cycle days 1 through 8. -/
theorem C4_menstrual_cap_counterexample :
    getPhaseForDate ⟨[⟨0, EvType.start⟩], 29⟩ 7 = Phase.Menstrual
    ∧ getPhaseForDate ⟨[⟨0, EvType.start⟩], 29⟩ 7 ≠ Phase.Follicular := by
  constructor
  · decide
  · decide

/-- C4 amended: the Menstrual classification granted by an unclosed `Start`
expires once more than 7 days have elapsed (cycle day 9 and later): whenever
the most recent event on-or-before `d` is a `start` more than 7 days old, the
resolver falls through to the projected phase math; in particular for `d`
exactly 8 days after such an unclosed start (cycle day 9, default average
length) the returned phase is Follicular. -/
theorem C4_menstrual_cap_amended :
    (∀ (c : CycleState) (d : Nat) (e : CycleEvent),
      lastEventLE c.events d = some e → e.type = EvType.start →
      7 < (d : Int) - (e.date : Int) →
      getPhaseForDate c d = projectedPhase c d)
    ∧ getPhaseForDate ⟨[⟨0, EvType.start⟩], 29⟩ 8 = Phase.Follicular := by
  refine ⟨?_, by decide⟩
  intro c d e hle hty hgt
  have hov : menstrualOverride c d = false := by
    have h7 : ¬ ((d : Int) - (e.date : Int) ≤ 7) := by omega
    simp [menstrualOverride, hle, h7]
  simp [getPhaseForDate, hov]

/-- C4 witness: the amended cap applied to the concrete unclosed start on day
0 queried at day 8. -/
theorem C4_menstrual_cap_witness :
    getPhaseForDate ⟨[⟨0, EvType.start⟩], 29⟩ 8 =
      projectedPhase ⟨[⟨0, EvType.start⟩], 29⟩ 8 :=
  C4_menstrual_cap_amended.1 ⟨[⟨0, EvType.start⟩], 29⟩ 8 ⟨0, EvType.start⟩
    (by decide) rfl (by decide)

/-- C5: on a log whose consecutive start-to-start deltas are 28, 29, 5 and 31,
the statistics recomputation accepts exactly the deltas strictly between 15
and 50 (the 5 is rejected) and stores the rounded mean
`round((28 + 29 + 31) / 3) = 29`. -/
theorem C5_outlier_rejection :
    cycleSamples [⟨0, EvType.start⟩, ⟨28, EvType.start⟩, ⟨57, EvType.start⟩,
        ⟨62, EvType.start⟩, ⟨93, EvType.start⟩] = [28, 29, 31]
    ∧ recalculateCycleStats ⟨[⟨0, EvType.start⟩, ⟨28, EvType.start⟩, ⟨57, EvType.start⟩,
        ⟨62, EvType.start⟩, ⟨93, EvType.start⟩], 28⟩ =
      ⟨[⟨0, EvType.start⟩, ⟨28, EvType.start⟩, ⟨57, EvType.start⟩,
        ⟨62, EvType.start⟩, ⟨93, EvType.start⟩], 29⟩ := by
  refine ⟨by decide, ?_⟩
  have hs : cycleSamples [⟨0, EvType.start⟩, ⟨28, EvType.start⟩, ⟨57, EvType.start⟩,
      ⟨62, EvType.start⟩, ⟨93, EvType.start⟩] = [28, 29, 31] := by decide
  simp [recalculateCycleStats, hs, jsRound]
  norm_num [Int.floor_eq_iff]

/-- C6 counterexample: `logPeriodStart(d)` followed by `logPeriodEnd(d)` from
the empty log yields `[Start d, End d]` — two events sharing a date — so the
Event Log is not strictly sorted ascending by date after every mutation
sequence. -/
theorem C6_strict_sorted_counterexample :
    (logPeriodEnd (logPeriodStart cycleFactory 0) 0).events
      = [⟨0, EvType.start⟩, ⟨0, EvType.stop⟩]
    ∧ ¬ List.Pairwise (fun a b : CycleEvent => a.date < b.date)
        (logPeriodEnd (logPeriodStart cycleFactory 0) 0).events := by
  exact ⟨by decide, by decide⟩

/-- C6 amended: after every sequence of `logPeriodStart` and `logPeriodEnd`
calls starting from the empty event log, the Event Log is sorted ascending by
date in the non-strict sense (dates are non-decreasing); a `Start` and its
`End` may share a date. -/
theorem C6_sorted_invariant :
    ∀ ops : List CycleOp, List.Sorted evLE ((applyOps cycleFactory ops).events) := by
  have step : ∀ (c : CycleState) (op : CycleOp),
      List.Sorted evLE c.events → List.Sorted evLE ((applyOp c op).events) := by
    intro c op h
    cases op with
    | pstart d =>
      show List.Sorted evLE ((logPeriodStart c d).events)
      unfold logPeriodStart
      split
      · exact h
      · rw [sortCycleEvents_events]
        exact sorted_sortEvents _
    | pend d =>
      show List.Sorted evLE ((logPeriodEnd c d).events)
      unfold logPeriodEnd
      split
      · exact h
      · split
        · rw [sortCycleEvents_events]
          exact sorted_sortEvents _
        · exact h
  have aux : ∀ (ops : List CycleOp) (c : CycleState),
      List.Sorted evLE c.events → List.Sorted evLE ((applyOps c ops).events) := by
    intro ops
    induction ops with
    | nil => intro c h; exact h
    | cons op rest ih => intro c h; exact ih _ (step c op h)
  intro ops
  exact aux ops cycleFactory (by simp [cycleFactory])

/-- C7: `logPeriodStart` is idempotent — calling it twice with the same date,
from any state, yields the same state as calling it once. -/
theorem C7_logPeriodStart_idempotent :
    ∀ (c : CycleState) (d : Nat),
      logPeriodStart (logPeriodStart c d) d = logPeriodStart c d := by
  have noop : ∀ (s : CycleState) (d : Nat),
      s.events.any (fun e => e.date == d && e.type == EvType.start) = true →
      logPeriodStart s d = s := by
    intro s d hs
    unfold logPeriodStart
    rw [if_pos hs]
  intro c d
  by_cases h : c.events.any (fun e => e.date == d && e.type == EvType.start) = true
  · rw [noop c d h]
    exact noop c d h
  · have hev : (logPeriodStart c d).events
        = sortEvents (closeOpenCycles c.events d ++ [⟨d, EvType.start⟩]) := by
      unfold logPeriodStart
      rw [if_neg h, sortCycleEvents_events]
    have hmem : (⟨d, EvType.start⟩ : CycleEvent) ∈ (logPeriodStart c d).events := by
      rw [hev]
      exact (perm_sortEvents _).mem_iff.mpr
        (List.mem_append_right _ (List.mem_singleton_self _))
    have hany : (logPeriodStart c d).events.any
        (fun e => e.date == d && e.type == EvType.start) = true := by
      rw [List.any_eq_true]
      exact ⟨⟨d, EvType.start⟩, hmem,
        by simp [show (EvType.start == EvType.start) = true from rfl]⟩
    exact noop _ d hany

/-- C8 counterexample: in the reachable log `[Start 0, Start 4]` with query
date 2 there is no `End` on the date and no position satisfying the claim's
eligibility reading ("a Start on-or-before d whose immediate successor, if
any, is NOT itself a Start"), yet `logPeriodEnd` does mutate the log: the
code's eligibility condition is the opposite one (successor absent or itself
a `start`). -/
theorem C8_noop_counterexample :
    (([⟨0, EvType.start⟩, ⟨4, EvType.start⟩] : List CycleEvent).any
        (fun e => e.date == 2 && e.type == EvType.stop)) = false
    ∧ (∀ i : Fin 2,
        ¬((([⟨0, EvType.start⟩, ⟨4, EvType.start⟩] : List CycleEvent).get i).type = EvType.start
          ∧ (([⟨0, EvType.start⟩, ⟨4, EvType.start⟩] : List CycleEvent).get i).date ≤ 2
          ∧ (([⟨0, EvType.start⟩, ⟨4, EvType.start⟩] : List CycleEvent)[(i : Nat) + 1]?.all
              (fun n => !(n.type == EvType.start))) = true))
    ∧ logPeriodEnd ⟨[⟨0, EvType.start⟩, ⟨4, EvType.start⟩], 29⟩ 2
        ≠ ⟨[⟨0, EvType.start⟩, ⟨4, EvType.start⟩], 29⟩ := by
  exact ⟨by decide, by decide, by decide⟩

/-- C8 amended: if no `End` event exists on `d` and no position of the log
holds an open `Start` on-or-before `d` in the code's sense (`openStartEligible`:
a `start` dated on-or-before `d` whose immediate successor, if any, is itself
a `start`), then `logPeriodEnd d` is a silent no-op: the whole cycle state —
Event Log and average cycle length — is unchanged, and (the embedding being a
total function) no error is raised. -/
theorem C8_silent_noop :
    ∀ (c : CycleState) (d : Nat),
      c.events.any (fun e => e.date == d && e.type == EvType.stop) = false →
      (∀ i : Nat, openStartEligible c.events d i = false) →
      logPeriodEnd c d = c := by
  intro c d hend helig
  have hft : findCloseTarget c.events d = none := by
    unfold findCloseTarget
    split
    · rfl
    · exact findCloseTargetAux_none c.events d helig _
  unfold logPeriodEnd
  rw [hend, hft]
  simp

/-- C8 witness: a log holding a single `End` event and a later query date. -/
theorem C8_silent_noop_witness :
    logPeriodEnd ⟨[⟨3, EvType.stop⟩], 29⟩ 5 = ⟨[⟨3, EvType.stop⟩], 29⟩ := by
  apply C8_silent_noop
  · decide
  · intro i
    cases i with
    | zero => decide
    | succ j => simp [openStartEligible]

/-- The macro fold of `getDailyStats` computes componentwise sums on top of
its accumulator. -/
theorem macroFold_sum (l : List FoodEntry) :
    ∀ acc : Macros, l.foldl macroStep acc =
      ⟨acc.cals + (l.map FoodEntry.cals).sum, acc.p + (l.map FoodEntry.p).sum,
       acc.c + (l.map FoodEntry.c).sum, acc.f + (l.map FoodEntry.f).sum,
       acc.fiber + (l.map FoodEntry.fiber).sum⟩ := by
  induction l with
  | nil => intro acc; simp
  | cons x l ih => intro acc; simp [ih, macroStep, add_assoc]

/-- The burn fold of `getDailyStats` computes the sum of the `burn` fields on
top of its accumulator. -/
theorem burnFold_sum (l : List WorkoutEntry) :
    ∀ a : ℚ, l.foldl (fun acc item => acc + item.burn) a
      = a + (l.map WorkoutEntry.burn).sum := by
  induction l with
  | nil => intro a; simp
  | cons x l ih => intro a; simp [ih, add_assoc]

/-- A sequence of `logWorkout` calls appends, to each date's list, exactly the
logged entries carrying that date, in order. -/
theorem logWorkout_foldl (ws : List (Nat × WorkoutEntry)) :
    ∀ (m : DayMap WorkoutEntry) (d : Nat),
      (ws.foldl (fun m pr => logWorkout m pr.1 pr.2) m) d
        = m d ++ (ws.filter (fun pr => pr.1 == d)).map Prod.snd := by
  induction ws with
  | nil => intro m d; simp
  | cons pr rest ih =>
    intro m d
    simp only [List.foldl_cons, ih, List.filter_cons]
    by_cases h : pr.1 = d
    · subst h
      simp [logWorkout, List.append_assoc]
    · have hbeq : (pr.1 == d) = false := by simp [h]
      simp [logWorkout, hbeq, Ne.symm h]

/-- C9: `getDailyStats` returns the componentwise sums of the date's nutrition
entries and the sum of the `burn` values of the date's workout entries; on
empty maps every total is zero; and for workout maps built by `logWorkout`
calls the burn total is the sum of the burns logged for the queried date. -/
theorem C9_daily_totals :
    (∀ (nm : DayMap FoodEntry) (wm : DayMap WorkoutEntry) (d : Nat),
      getDailyStats nm wm d =
        ⟨⟨((nm d).map FoodEntry.cals).sum, ((nm d).map FoodEntry.p).sum,
          ((nm d).map FoodEntry.c).sum, ((nm d).map FoodEntry.f).sum,
          ((nm d).map FoodEntry.fiber).sum⟩,
          ((wm d).map WorkoutEntry.burn).sum⟩)
    ∧ (∀ d : Nat, getDailyStats (emptyDayMap FoodEntry) (emptyDayMap WorkoutEntry) d
        = ⟨⟨0, 0, 0, 0, 0⟩, 0⟩)
    ∧ (∀ (ws : List (Nat × WorkoutEntry)) (d : Nat),
        (getDailyStats (emptyDayMap FoodEntry) (applyWorkouts ws) d).burn
          = ((ws.filter (fun pr => pr.1 == d)).map (fun pr => pr.2.burn)).sum) := by
  have h1 : ∀ (nm : DayMap FoodEntry) (wm : DayMap WorkoutEntry) (d : Nat),
      getDailyStats nm wm d =
        ⟨⟨((nm d).map FoodEntry.cals).sum, ((nm d).map FoodEntry.p).sum,
          ((nm d).map FoodEntry.c).sum, ((nm d).map FoodEntry.f).sum,
          ((nm d).map FoodEntry.fiber).sum⟩,
          ((wm d).map WorkoutEntry.burn).sum⟩ := by
    intro nm wm d
    unfold getDailyStats
    rw [macroFold_sum, burnFold_sum]
    simp
  refine ⟨h1, ?_, ?_⟩
  · intro d
    rw [h1]
    simp [emptyDayMap]
  · intro ws d
    rw [h1]
    show ((applyWorkouts ws d).map WorkoutEntry.burn).sum = _
    unfold applyWorkouts
    rw [logWorkout_foldl]
    simp [emptyDayMap, Function.comp]
    rfl

/-- C10: when the log has at least 3 events but no accepted start-to-start
delta (none strictly between 15 and 50), `recalculateCycleStats` changes
nothing: the stored average cycle length and all other state are retained. -/
theorem C10_stats_frame :
    ∀ c : CycleState, 3 ≤ c.events.length → cycleSamples c.events = [] →
      recalculateCycleStats c = c := by
  intro c h3 hs
  unfold recalculateCycleStats
  rw [if_neg (by omega), hs]
  simp

/-- C10 witness: three starts whose deltas (4 and 4) are all rejected. -/
theorem C10_stats_frame_witness :
    recalculateCycleStats ⟨[⟨0, EvType.start⟩, ⟨4, EvType.start⟩, ⟨8, EvType.start⟩], 29⟩
      = ⟨[⟨0, EvType.start⟩, ⟨4, EvType.start⟩, ⟨8, EvType.start⟩], 29⟩ :=
  C10_stats_frame _ (by decide) (by decide)
